import Mathlib

/-!
Verification development for the superbenefit/governance-server sync-and-cache
core: the frontmatter parser, the D1 upsert/graph model populated by the sync
workflow, the webhook intake with replay protection, and the TTL-gated cache
refresh scheduler.  Every definition is a shallow embedding of the
corresponding TypeScript source; doc comments name the source file and lines.
-/

namespace Gov

/-- JS character class \w = [A-Za-z0-9_]. -/
def isWordChar (c : Char) : Bool := c.isAlphanum || c = '_'

/-- Character allowed after the first one in a frontmatter key, [\w_-]. -/
def isKeyChar (c : Char) : Bool := isWordChar c || c = '-'

/-- Single quote and double quote, written via code points to stay plain. -/
def isQuoteChar (c : Char) : Bool := c = Char.ofNat 39 || c = Char.ofNat 34

/-- Decidable prefix test on character lists. -/
def startsL : List Char → List Char → Bool
  | [], _ => true
  | _ :: _, [] => false
  | a :: as, b :: bs => a = b && startsL as bs

/-- Decidable contiguous-substring test, modelling the JS String.includes call. -/
def hasSubL (needle : List Char) : List Char → Bool
  | [] => startsL needle []
  | c :: rest => startsL needle (c :: rest) || hasSubL needle rest

/-- String.includes from JS, used by the path exclusion check. -/
def strContains (s sub : String) : Bool := hasSubL sub.data s.data

/-- JS String.startsWith, over character lists so that the kernel can
evaluate it. -/
def strStarts (s pre : String) : Bool := startsL pre.data s.data

/-- JS String.endsWith. -/
def strEnds (s suf : String) : Bool := startsL suf.data.reverse s.data.reverse

/-- JS String.slice(n) for non-negative n. -/
def strDrop (s : String) (n : Nat) : String := String.mk (s.data.drop n)

/-- Removal of the last n characters, as in slice(0, -n). -/
def strDropRight (s : String) (n : Nat) : String :=
  String.mk (s.data.take (s.data.length - n))

/-- JS String.trim on our ASCII inputs. -/
def jsTrim (s : String) : String :=
  String.mk (((s.data.dropWhile Char.isWhitespace).reverse.dropWhile
    Char.isWhitespace).reverse)

/-- Split of a character list at every occurrence of a separator character;
mirrors JS String.split with a one-character separator (the only kind the
source uses), so an empty input yields one empty field. -/
def splitChar (sep : Char) : List Char → List (List Char)
  | [] => [[]]
  | c :: rest =>
    if c = sep then [] :: splitChar sep rest
    else
      match splitChar sep rest with
      | [] => [[c]]
      | f :: fs => (c :: f) :: fs

/-- String-level split on a one-character separator. -/
def strSplitChar (sep : Char) (s : String) : List String :=
  (splitChar sep s.data).map String.mk

/-- JS Array.join. -/
def strJoin (sep : String) : List String → String
  | [] => ""
  | [x] => x
  | x :: y :: xs => x ++ sep ++ strJoin sep (y :: xs)

/-- Value stored for one frontmatter key: the simple YAML scanner in
src/sync/parser.ts only ever produces flat strings or lists of strings. -/
inductive YamlVal where
  | str (s : String)
  | list (l : List String)
  deriving DecidableEq, Repr

/-- JS truthiness of a frontmatter value: the empty string is falsy, every
other string is truthy, and an array is always truthy. -/
def yamlTruthy : YamlVal → Bool
  | .str s => s ≠ ""
  | .list _ => true

/-- JS template-literal stringification of a frontmatter value (arrays render
comma-joined). -/
def yamlToString : YamlVal → String
  | .str s => s
  | .list l => strJoin "," l

/-- Assignment into the result record: overwrites an existing key in place,
appends a new key at the end, as a JS object does. -/
def setKey (m : List (String × YamlVal)) (k : String) (v : YamlVal) :
    List (String × YamlVal) :=
  if m.any (fun p => p.1 == k) then
    m.map (fun p => if p.1 == k then (k, v) else p)
  else m ++ [(k, v)]

/-- Property read from the result record. -/
def getKey (m : List (String × YamlVal)) (k : String) : Option YamlVal :=
  (m.find? (fun p => p.1 == k)).map (fun p => p.2)

/-- The replace of /^['"]|['"]$/g in parseYamlSimple: strips at most one
leading and at most one trailing quote character. -/
def stripQuotes (s : String) : String :=
  let l1 : List Char :=
    match s.data with
    | c :: rest => if isQuoteChar c then rest else c :: rest
    | [] => []
  let l2 : List Char :=
    match l1.getLast? with
    | some c => if isQuoteChar c then l1.dropLast else l1
    | none => l1
  String.mk l2

/-- Match of /^\s+-\s+/ followed by replace and trim: recognises a block list
item line and returns its trimmed payload (parser.ts lines 245-255). -/
def listItemLine (line : String) : Option String :=
  let cs := line.data
  let ws1 := cs.takeWhile Char.isWhitespace
  if ws1.isEmpty then none
  else
    match cs.drop ws1.length with
    | '-' :: rest =>
      let ws2 := rest.takeWhile Char.isWhitespace
      if ws2.isEmpty then none
      else some (jsTrim (String.mk (rest.drop ws2.length)))
    | _ => none

/-- Match of /^(\w[\w_-]*):\s*(.*)/ (parser.ts line 258): the key is the
maximal run of key characters starting with a word character, immediately
followed by a colon; the captured value is the rest of the line after greedy
whitespace, stopped at a carriage return because the dot cannot match one. -/
def kvLine (line : String) : Option (String × String) :=
  match line.data with
  | c :: rest =>
    if isWordChar c then
      let keyTail := rest.takeWhile isKeyChar
      match rest.drop keyTail.length with
      | ':' :: afterColon =>
        let ws := afterColon.takeWhile Char.isWhitespace
        let captured := (afterColon.drop ws.length).takeWhile (fun ch => ch ≠ '\r')
        some (String.mk (c :: keyTail), String.mk captured)
      | _ => none
    else none
  | [] => none

/-- JS String.split on a separator (an empty input yields one empty field). -/
def jsSplitComma (s : String) : List String := strSplitChar ',' s

/-- Mutable scanner state of parseYamlSimple: the result record plus the
currentKey and currentList variables (parser.ts lines 238-241). -/
structure YState where
  result : List (String × YamlVal)
  currentKey : Option String
  currentList : Option (List String)
  deriving Repr

/-- One iteration of the line loop in parseYamlSimple (parser.ts lines
243-278).  The only way the source can throw is the push onto
result[currentKey] when that value is a truthy non-array (a non-empty scalar
string); that TypeError is modelled as the error outcome. -/
def yamlStep (st : YState) (line : String) : Except Unit YState :=
  match listItemLine line with
  | some item =>
    match st.currentList with
    | some l =>
      let l' := l ++ [item]
      -- currentList is only ever created together with currentKey, and the
      -- result entry for that key aliases it; mirror the aliasing explicitly.
      match st.currentKey with
      | some k =>
        .ok { result := setKey st.result k (.list l'),
              currentKey := some k, currentList := some l' }
      | none => .ok { st with currentList := some l' }
    | none =>
      match st.currentKey with
      | some k =>
        match getKey st.result k with
        | none => .ok { st with result := setKey st.result k (.list [item]) }
        | some v =>
          if yamlTruthy v then
            match v with
            | .list l => .ok { st with result := setKey st.result k (.list (l ++ [item])) }
            | .str _ => .error ()   -- push on a non-empty string: TypeError
          else
            .ok { st with result := setKey st.result k (.list [item]) }
      | none => .ok st
  | none =>
    match kvLine line with
    | some (k, rawVal) =>
      let flushed : List (String × YamlVal) × Option (List String) :=
        match st.currentList, st.currentKey with
        | some l, some ck => (setKey st.result ck (.list l), none)
        | cl, _ => (st.result, cl)
      let v := jsTrim rawVal
      if v = "" || v = "|" || v = ">" then
        .ok { result := setKey flushed.1 k (.list []),
              currentKey := some k, currentList := some [] }
      else if strStarts v "[" && strEnds v "]" then
        let inner := strDropRight (strDrop v 1) 1
        let items := (jsSplitComma inner).map (fun x => stripQuotes (jsTrim x))
        .ok { result := setKey flushed.1 k (.list items),
              currentKey := some k, currentList := flushed.2 }
      else
        .ok { result := setKey flushed.1 k (.str (stripQuotes v)),
              currentKey := some k, currentList := none }
    | none => .ok st

/-- Line loop of parseYamlSimple. -/
def yamlLoop (st : YState) : List String → Except Unit YState
  | [] => .ok st
  | line :: rest =>
    match yamlStep st line with
    | .error e => .error e
    | .ok st' => yamlLoop st' rest

/-- parseYamlSimple (parser.ts lines 237-285): splits on newlines, runs the
line loop from the empty state, then performs the trailing flush. -/
def parseYamlSimple (yaml : String) : Except Unit (List (String × YamlVal)) :=
  match yamlLoop ⟨[], none, none⟩ (strSplitChar '\n' yaml) with
  | .error e => .error e
  | .ok st =>
    match st.currentList, st.currentKey with
    | some l, some k => .ok (setKey st.result k (.list l))
    | _, _ => .ok st.result

/-- Lazy scan for the closing fence, the ([\s\S]*?)\r?\n then triple dash part
of the frontmatter regex: returns the shortest prefix that is followed by an
end-of-block marker (extractFrontmatter, parser.ts lines 227-231). -/
def fmScan : List Char → Option (List Char)
  | [] => none
  | c :: rest =>
    if startsL "\r\n---".data (c :: rest) || startsL "\n---".data (c :: rest) then
      some []
    else
      match fmScan rest with
      | some pre => some (c :: pre)
      | none => none

/-- The regex part of extractFrontmatter: a triple dash and \r?\n at the very
start, then the lazy capture up to the closing fence; yields the captured
metadata block text. -/
def extractFrontmatterRaw (content : String) : Option String :=
  let cs := content.data
  if startsL "---\r\n".data cs then (fmScan (cs.drop 5)).map String.mk
  else if startsL "---\n".data cs then (fmScan (cs.drop 4)).map String.mk
  else none

/-- extractFrontmatter (parser.ts lines 227-231): regex match, then the simple
YAML scan of the captured group. -/
def extractFrontmatter (content : String) :
    Except Unit (Option (List (String × YamlVal))) :=
  match extractFrontmatterRaw content with
  | none => .ok none
  | some y =>
    match parseYamlSimple y with
    | .error e => .error e
    | .ok fm => .ok (some fm)

/-- pathToSlug of the parser (parser.ts lines 341-346): strips one leading
agreements/, policies/ or proposals/ segment, a trailing .md, and turns the
remaining slashes into dashes. -/
def pathToSlug (path : String) : String :=
  let s1 :=
    if strStarts path "agreements/" then strDrop path 11
    else if strStarts path "policies/" then strDrop path 9
    else if strStarts path "proposals/" then strDrop path 10
    else path
  let s2 := if strEnds s1 ".md" then strDropRight s1 3 else s1
  String.mk (s2.data.map (fun c => if c = '/' then '-' else c))

/-- JS w.charAt(0).toUpperCase() + w.slice(1), on our ASCII inputs. -/
def jsCapitalize (w : String) : String :=
  match w.data with
  | [] => ""
  | c :: rest => String.mk (c.toUpper :: rest)

/-- titleFromPath (parser.ts lines 348-353): title-cases the slug. -/
def titleFromPath (path : String) : String :=
  strJoin " " ((strSplitChar '-' (pathToSlug path)).map jsCapitalize)

/-- normaliseType (parser.ts lines 287-292); the argument is the raw property,
absent when the key is missing. -/
def normaliseType (raw : Option YamlVal) : String :=
  if raw = some (.str "agreement") then "agreement"
  else if raw = some (.str "policy") then "policy"
  else if raw = some (.str "proposal") then "proposal"
  else "other"

/-- normaliseStatus (parser.ts lines 294-300). -/
def normaliseStatus (raw : Option YamlVal) : String :=
  if raw = some (.str "active") then "active"
  else if raw = some (.str "draft") then "draft"
  else if raw = some (.str "superseded") then "superseded"
  else if raw = some (.str "retired") then "retired"
  else "draft"

/-- normaliseDomains (parser.ts lines 302-307).  none stands for the ?? []
default (an empty array, which is truthy and maps to []); a falsy string maps
to [], a truthy string to a singleton, and an array is filtered by truthiness. -/
def normaliseDomains (raw : Option YamlVal) : List String :=
  match raw with
  | none => []
  | some (.str s) => if s = "" then [] else [s]
  | some (.list l) => l.filter (fun s => s ≠ "")

/-- One relationship entry. -/
structure Rel where
  type : String
  targetSlug : String
  deriving DecidableEq, Repr

/-- Match of /^(\w+):\s*(.+)/ on an inline relationship item (parser.ts line
314): a maximal non-empty \w+ run followed by a colon, then the greedy
whitespace-then-capture dance of the dot-plus group, which needs at least one
character the dot can match (anything but a carriage return). -/
def relItemMatch (s : String) : Option (String × String) :=
  match s.data with
  | c :: rest =>
    if isWordChar c then
      let keyTail := rest.takeWhile isWordChar
      match rest.drop keyTail.length with
      | ':' :: afterColon =>
        let j := (afterColon.takeWhile Char.isWhitespace).length
        if j < afterColon.length then
          -- the first non-whitespace character can never be a carriage return
          some (String.mk (c :: keyTail),
                String.mk ((afterColon.drop j).takeWhile (fun ch => ch ≠ '\r')))
        else
          -- all-whitespace remainder: backtrack to the last character that is
          -- not a carriage return, if any
          match (afterColon.reverse.dropWhile (fun ch => ch = '\r')) with
          | [] => none
          | _ :: _ =>
            let i := (afterColon.reverse.dropWhile (fun ch => ch = '\r')).length - 1
            some (String.mk (c :: keyTail),
                  String.mk ((afterColon.drop i).takeWhile (fun ch => ch ≠ '\r')))
      | _ => none
    else none
  | [] => none

/-- normaliseRelationships (parser.ts lines 309-326).  The scanner only ever
produces string items, so only the inline "type: target" shape can match; the
object branch of the source is unreachable from parseYamlSimple. -/
def normaliseRelationships (raw : Option YamlVal) : List Rel :=
  match raw with
  | some (.list l) =>
    l.flatMap (fun item =>
      match relItemMatch item with
      | some (t, tgt) => [⟨t, jsTrim tgt⟩]
      | none => [])
  | _ => []

/-- One scope entry. -/
structure ScopeEntry where
  entityType : String
  entityId : String
  deriving DecidableEq, Repr

/-- normaliseScope (parser.ts lines 328-339): shape inference per item. -/
def normaliseScope (raw : Option YamlVal) : List ScopeEntry :=
  match raw with
  | some (.list l) =>
    l.flatMap (fun item =>
      if strStarts item "0x" then [⟨"address", item⟩]
      else
        match item.data with
        | c :: _ => if c.isDigit then [⟨"hat", item⟩] else [⟨"group", item⟩]
        | [] => [⟨"group", item⟩])
  | _ => []

/-- ParsedDocument (parser.ts lines 156-168).  id and title keep the raw
frontmatter value type, because the source assigns fm.id / fm.title without
coercion. -/
structure ParsedDocument where
  id : YamlVal
  slug : String
  type : String
  title : YamlVal
  status : String
  effectiveFrom : Option YamlVal
  effectiveTo : Option YamlVal
  enactedBy : Option YamlVal
  domains : List String
  relationships : List Rel
  scope : List ScopeEntry
  deriving DecidableEq, Repr

/-- Decidable equality for Except outcomes, used by concrete evaluations. -/
instance {e a : Type} [DecidableEq e] [DecidableEq a] : DecidableEq (Except e a) :=
  fun x y =>
  match x, y with
  | .ok u, .ok v => if h : u = v then .isTrue (by rw [h]) else .isFalse (by simp [h])
  | .error u, .error v =>
    if h : u = v then .isTrue (by rw [h]) else .isFalse (by simp [h])
  | .ok _, .error _ => .isFalse (by simp)
  | .error _, .ok _ => .isFalse (by simp)

/-- The ?? chain over two candidate keys. -/
def key2 (fm : List (String × YamlVal)) (k1 k2 : String) : Option YamlVal :=
  match getKey fm k1 with
  | some v => some v
  | none => getKey fm k2

/-- Record assembly of parseGovernanceDocument (parser.ts lines 183-204). -/
def buildRecord (path : String) (fm : List (String × YamlVal)) : ParsedDocument :=
  let slug := pathToSlug path
  { id := (getKey fm "id").getD (.str slug)
    slug := slug
    type := normaliseType (getKey fm "type")
    title := (getKey fm "title").getD (.str (titleFromPath path))
    status := normaliseStatus (getKey fm "status")
    effectiveFrom := key2 fm "effective_from" "effectiveFrom"
    effectiveTo := key2 fm "effective_to" "effectiveTo"
    enactedBy := key2 fm "enacted_by" "enactedBy"
    domains := normaliseDomains (key2 fm "domain" "domains")
    relationships := normaliseRelationships (key2 fm "related" "relationships")
    scope := normaliseScope (getKey fm "scope") }

/-- The path exclusion test of parseGovernanceDocument (parser.ts line 176). -/
def excludedPath (path : String) : Bool :=
  strContains path "README" || strContains path "template" || strContains path "_"

/-- parseGovernanceDocument (parser.ts lines 174-205).  ok none is the
NotIndexable outcome; the error is the TypeError the YAML scanner can throw. -/
def parseGovernanceDocument (path content : String) :
    Except Unit (Option ParsedDocument) :=
  if excludedPath path then .ok none
  else
    match extractFrontmatter content with
    | .error e => .error e
    | .ok none => .ok none
    | .ok (some fm) => .ok (some (buildRecord path fm))

/-! ## Relational graph store

Shallow embedding of the D1 tables the sync workflow writes
(migrations/0001_initial.sql) and of the statements in
src/sync/workflow.ts.  Statement-level SQLite semantics were checked
against SQLite: a targeted ON CONFLICT(slug) upsert updates the conflicting
row even when the id primary key would collide with that same row; an id
collision with a different row raises a uniqueness error; INSERT OR IGNORE
suppresses primary-key and CHECK violations but not foreign-key violations.
D1 runs each statement autocommitted, so effects before a failing statement
persist. -/

/-- documents table row (migrations/0001_initial.sql lines 10-25).  id and
title keep the raw frontmatter value type of the bound JS value. -/
structure DocRow where
  id : YamlVal
  slug : String
  type : String
  title : YamlVal
  status : String
  effective_from : Option YamlVal
  effective_to : Option YamlVal
  content_hash : Option String
  enacted_by : Option YamlVal
  r2_key : Option String
  created_at : String
  updated_at : String
  deriving DecidableEq, Repr

/-- domains table row, the columns the sync reads (0001_initial.sql 50-60). -/
structure DomainRow where
  id : String
  slug : String
  name : String
  domain_type : String
  deriving DecidableEq, Repr

/-- document_relationships table row (0001_initial.sql 79-93). -/
structure RelRow where
  id : String
  from_id : YamlVal
  to_id : YamlVal
  relationship_type : String
  created_at : String
  deriving DecidableEq, Repr

/-- The D1 database state touched by the sync workflow.  document_domains
rows are (document_id, domain_id) pairs, the composite primary key. -/
structure DB where
  documents : List DocRow
  domains : List DomainRow
  document_domains : List (YamlVal × String)
  document_relationships : List RelRow
  deriving DecidableEq, Repr

/-- The closed relationship-type vocabulary enforced by the CHECK constraint
on document_relationships (0001_initial.sql 83-91). -/
def relVocab : List String :=
  ["authorized_by", "implements", "supersedes", "references", "evaluates", "fulfills"]

/-- Seeded domains (0001_initial.sql 120-125). -/
def seedDomains : List DomainRow :=
  [⟨"dom-metagov", "metagovernance", "Metagovernance", "governance_function"⟩,
   ⟨"dom-operations", "operations", "Operations", "governance_function"⟩,
   ⟨"dom-platforms", "platforms", "Platform Administration", "governance_function"⟩,
   ⟨"dom-dao-core", "dao-core", "DAO Core", "entity"⟩,
   ⟨"dom-treasury", "treasury", "Treasury", "governance_function"⟩]

/-- D1 bind accepts strings (and null); binding a JS array raises
D1_TYPE_ERROR before the statement runs. -/
def bindable : YamlVal → Bool
  | .str _ => true
  | .list _ => false

/-- Bindability of an optional value (null binds fine). -/
def bindableOpt : Option YamlVal → Bool
  | none => true
  | some v => bindable v

/-- All values bound by the statements of upsertDocument. -/
def bindOk (p : ParsedDocument) : Bool :=
  bindable p.id && bindable p.title && bindableOpt p.effectiveFrom &&
    bindableOpt p.effectiveTo && bindableOpt p.enactedBy

namespace Workflow

/-- The UPDATE SET list of the slug-conflict branch (workflow.ts 103-110):
title, status, effective_from, effective_to, enacted_by, r2_key and
updated_at come from the excluded row; id, slug, type, content_hash and
created_at stay untouched. -/
def updRow (r : DocRow) (p : ParsedDocument) (r2Key now : String) : DocRow :=
  { r with title := p.title, status := p.status,
           effective_from := p.effectiveFrom, effective_to := p.effectiveTo,
           enacted_by := p.enactedBy, r2_key := some r2Key, updated_at := now }

/-- The row a fresh INSERT creates (workflow.ts 101-102): created_at and
updated_at are both the statement time, content_hash is not in the column
list and defaults to NULL. -/
def newRow (p : ParsedDocument) (r2Key now : String) : DocRow :=
  { id := p.id, slug := p.slug, type := p.type, title := p.title,
    status := p.status, effective_from := p.effectiveFrom,
    effective_to := p.effectiveTo, content_hash := none,
    enacted_by := p.enactedBy, r2_key := some r2Key,
    created_at := now, updated_at := now }

/-- The INSERT ... ON CONFLICT(slug) DO UPDATE statement on documents
(workflow.ts 99-113) under SQLite upsert semantics. -/
def docUpsert (docs : List DocRow) (p : ParsedDocument) (r2Key now : String) :
    Except String (List DocRow) :=
  if docs.any (fun r => r.slug == p.slug) then
    .ok (docs.map (fun r => if r.slug == p.slug then updRow r p r2Key now else r))
  else if docs.any (fun r => r.id == p.id) then
    .error "UNIQUE constraint failed: documents.id"
  else
    .ok (docs ++ [newRow p r2Key now])

/-- Domain-association loop (workflow.ts 116-127): look up the domain by
slug, skip silently when absent; INSERT OR IGNORE into document_domains on
the composite primary key; the document_id foreign key is the only
constraint that can abort, and the statements already run stay applied. -/
def ddLoop (db : DB) (docId : YamlVal) : List String → DB × Option String
  | [] => (db, none)
  | dslug :: rest =>
    match db.domains.find? (fun d => d.slug == dslug) with
    | none => ddLoop db docId rest
    | some dom =>
      if db.document_domains.any (fun pr => pr.1 == docId && pr.2 == dom.id) then
        ddLoop db docId rest
      else if db.documents.any (fun r => r.id == docId) then
        ddLoop { db with document_domains := db.document_domains ++ [(docId, dom.id)] }
          docId rest
      else
        (db, some "FOREIGN KEY constraint failed")

/-- Relationship loop (workflow.ts 130-145): look up the target by slug and
skip silently when absent; the edge id is the template string
id : type : target id; INSERT OR IGNORE suppresses the duplicate primary key
and the relationship_type CHECK, while a broken from_id foreign key aborts. -/
def relLoop (db : DB) (docId : YamlVal) (now : String) : List Rel → DB × Option String
  | [] => (db, none)
  | rel :: rest =>
    match db.documents.find? (fun r => r.slug == rel.targetSlug) with
    | none => relLoop db docId now rest
    | some target =>
      let relId := yamlToString docId ++ ":" ++ rel.type ++ ":" ++ yamlToString target.id
      if db.document_relationships.any (fun r => r.id == relId) then
        relLoop db docId now rest
      else if !(relVocab.contains rel.type) then
        relLoop db docId now rest
      else if db.documents.any (fun r => r.id == docId) then
        relLoop { db with document_relationships :=
                    db.document_relationships ++ [⟨relId, docId, target.id, rel.type, now⟩] }
          docId now rest
      else
        (db, some "FOREIGN KEY constraint failed")

/-- upsertDocument (workflow.ts 89-146).  Returns the database after every
statement that ran, plus the first error if one was thrown; D1 autocommits
per statement, so a later failure keeps earlier effects. -/
def upsertDocument (db : DB) (p : ParsedDocument) (r2Key now : String) :
    DB × Option String :=
  if !(bindOk p) then (db, some "D1_TYPE_ERROR")
  else
    match docUpsert db.documents p r2Key now with
    | .error e => (db, some e)
    | .ok docs1 =>
      let db1 := { db with documents := docs1 }
      match ddLoop db1 p.id p.domains with
      | (db2, some e) => (db2, some e)
      | (db2, none) => relLoop db2 p.id now p.relationships

/-- pathToSlug of the workflow (workflow.ts 157-159).  Unlike the parser
version it does not strip a leading proposals/ segment. -/
def pathToSlug (path : String) : String :=
  let s1 :=
    if strStarts path "agreements/" then strDrop path 11
    else if strStarts path "policies/" then strDrop path 9
    else path
  let s2 := if strEnds s1 ".md" then strDropRight s1 3 else s1
  String.mk (s2.data.map (fun c => if c = '/' then '-' else c))

/-- deleteDocument (workflow.ts 148-155): soft delete by slug, setting
status to retired and refreshing updated_at. -/
def deleteDocument (db : DB) (path now : String) : DB :=
  let slug := pathToSlug path
  { db with documents :=
      db.documents.map (fun r =>
        if r.slug == slug then { r with status := "retired", updated_at := now } else r) }

/-- The D1 part of one sync-file step (workflow.ts 35-47): parse the content
and, when a record results, upsert it with the deterministic r2 key.  The
preceding R2 put does not touch the database; a parse throw fails the step
before any D1 write. -/
def syncFile (db : DB) (path content now : String) : DB × Option String :=
  match parseGovernanceDocument path content with
  | .error _ => (db, some "TypeError")
  | .ok none => (db, none)
  | .ok (some p) => upsertDocument db p ("governance/" ++ path) now

end Workflow

/-! ## Webhook intake

Embedding of the webhook handler (main entry point, handleWebhook, lines
189-235): signature verification is abstracted to its boolean outcome, the
JSON body to the structured push event, and the SYNC_STATE KV namespace to a
list of (key, expiry) pairs with Date.now based expiry in seconds. -/

namespace Intake

/-- One commit of a GitHubPushEvent. -/
structure CommitInfo where
  id : String
  added : List String
  modified : List String
  removed : List String
  deriving DecidableEq, Repr

/-- GitHubPushEvent (types/sync, lines 1-15), the fields the handler reads. -/
structure PushEvent where
  ref : String
  after : String
  commits : List CommitInfo
  deriving DecidableEq, Repr

/-- The five distinct responses of handleWebhook. -/
inductive Outcome where
  | invalidSignature
  | duplicate (deliveryId : String)
  | ignoredBranch
  | ignoredNoFiles
  | accepted (changed deleted : List String) (commitSha : String)
  deriving DecidableEq, Repr

/-- KV read of a nonce key: present iff some entry with that key has not yet
expired at the current time. -/
def kvHas (st : List (String × Nat)) (key : String) (now : Nat) : Bool :=
  st.any (fun pr => pr.1 == key && now < pr.2)

/-- KV put with expirationTtl: replaces any entry under the key. -/
def kvPut (st : List (String × Nat)) (key : String) (expiresAt : Nat) :
    List (String × Nat) :=
  (key, expiresAt) :: st.filter (fun pr => pr.1 ≠ key)

/-- Spread of new Set(xs): keeps the first occurrence of each element. -/
def dedupAux (seen : List String) : List String → List String
  | [] => []
  | x :: xs => if seen.contains x then dedupAux seen xs else x :: dedupAux (x :: seen) xs

/-- Deduplication via JS Set insertion order. -/
def dedup (l : List String) : List String := dedupAux [] l

/-- uniqueChanged (entry point lines 214-216, 221): markdown files added or
modified by any commit, de-duplicated. -/
def changedMd (p : PushEvent) : List String :=
  dedup ((p.commits.flatMap (fun c => c.added ++ c.modified)).filter
    (fun f => strEnds f ".md"))

/-- uniqueDeleted (entry point lines 217-219, 222). -/
def deletedMd (p : PushEvent) : List String :=
  dedup ((p.commits.flatMap (fun c => c.removed)).filter (fun f => strEnds f ".md"))

/-- Result of one webhook delivery: the response outcome, the SYNC_STATE
contents afterwards, and how many sync-pipeline workflows were dispatched. -/
structure HookResult where
  outcome : Outcome
  state : List (String × Nat)
  dispatches : Nat
  deriving DecidableEq, Repr

/-- Branch filter, file filter and dispatch (entry point lines 208-234),
reached only after signature and replay checks. -/
def processPayload (st : List (String × Nat)) (payload : PushEvent) : HookResult :=
  if payload.ref ≠ "refs/heads/main" then ⟨.ignoredBranch, st, 0⟩
  else if (changedMd payload).isEmpty && (deletedMd payload).isEmpty then
    ⟨.ignoredNoFiles, st, 0⟩
  else ⟨.accepted (changedMd payload) (deletedMd payload) payload.after, st, 1⟩

/-- handleWebhook (entry point lines 189-235): signature check, then replay
protection keyed on the delivery id when one is present (recorded with a 24
hour expiry, 86400 seconds), then payload processing.  A missing delivery id
skips the replay block entirely. -/
def handleWebhook (st : List (String × Nat)) (now : Nat) (sigOk : Bool)
    (deliveryId : Option String) (payload : PushEvent) : HookResult :=
  if !sigOk then ⟨.invalidSignature, st, 0⟩
  else
    match deliveryId with
    | none => processPayload st payload
    | some d =>
      let key := "webhook:" ++ d
      if kvHas st key now then ⟨.duplicate d, st, 0⟩
      else processPayload (kvPut st key (now + 86400)) payload

end Intake

/-! ## Cache refresh scheduler -/

namespace Cache

/-- Gating decision of refreshIfDue (src/data/kv-cache.ts lines 74-98):
whether the fetcher is invoked for one key in one cycle.  The KV read of the
lastrun key is abstracted to its parsed value, an integer epoch-millisecond
timestamp, absent when no record exists; ttlSeconds is multiplied by 1000 as
in the source comparison.  The claim instance TTL of 900 seconds is the
proposals and activity TTL, 15 * 60 (kv-cache.ts lines 21-22). -/
def refreshIfDueFetches (force : Bool) (lastRun : Option Int)
    (now ttlSeconds : Int) : Bool :=
  if !force then
    match lastRun with
    | some t => if now - t < ttlSeconds * 1000 then false else true
    | none => true
  else true

end Cache

/-! ## Concrete scenario inputs -/

/-- The operating-agreement frontmatter with the related list written exactly
as the concrete scenario of the spec writes it, as an inline nested object. -/
def scenarioLit : String :=
  "---\ntype: agreement\nstatus: active\ndomain: [dao-core]\nrelated: [\x7btype: authorized_by, target: charter\x7d]\n---\n\n# Operating Agreement\n"

/-- The same metadata with the related list in the block-list shape the
scanner supports, one inline type-colon-target string per item. -/
def scenarioBlock : String :=
  "---\ntype: agreement\nstatus: active\ndomain: [dao-core]\nrelated:\n  - authorized_by: charter\n---\n\n# Operating Agreement\n"

/-- The pre-existing charter document of the concrete scenario. -/
def charterRow : DocRow :=
  ⟨.str "charter", "charter", "agreement", .str "Charter", "active",
   none, none, none, none, some "governance/agreements/charter.md", "T0", "T0"⟩

/-- Scenario database: the charter document and the seeded domains. -/
def scenarioDb : DB := ⟨[charterRow], seedDomains, [], []⟩

/-- A minimal active-policy frontmatter used by the idempotency scenarios. -/
def activeContent : String := "---\nstatus: active\n---\nBody"

/-! ## Supporting lemmas -/

/-- processPayload never touches the nonce store. -/
theorem processPayload_state (st : List (String × Nat)) (p : Intake.PushEvent) :
    (Intake.processPayload st p).state = st := by
  unfold Intake.processPayload
  split
  · rfl
  · split <;> rfl

/-- processPayload dispatches at most one workflow. -/
theorem processPayload_dispatches_le (st : List (String × Nat)) (p : Intake.PushEvent) :
    (Intake.processPayload st p).dispatches ≤ 1 := by
  unfold Intake.processPayload
  split
  · exact Nat.zero_le 1
  · split
    · exact Nat.zero_le 1
    · exact Nat.le_refl 1

/-- A freshly put nonce key is visible to any read before its expiry. -/
theorem kvHas_kvPut_self (st : List (String × Nat)) (k : String) (e now : Nat)
    (h : now < e) : Intake.kvHas (Intake.kvPut st k e) k now = true := by
  simp [Intake.kvHas, Intake.kvPut, List.any_cons, h]

/-- The domain loop never modifies the documents table, on any branch. -/
theorem ddLoop_documents (ds : List String) (db : DB) (docId : YamlVal) :
    (Workflow.ddLoop db docId ds).1.documents = db.documents := by
  induction ds generalizing db with
  | nil => rfl
  | cons d rest ih =>
    unfold Workflow.ddLoop
    cases db.domains.find? (fun dm => dm.slug == d) with
    | none => exact ih db
    | some dom =>
      dsimp only
      cases h1 : db.document_domains.any (fun pr => pr.1 == docId && pr.2 == dom.id) with
      | true => exact ih db
      | false =>
        cases h2 : db.documents.any (fun r => r.id == docId) with
        | true =>
          exact ih { db with document_domains := db.document_domains ++ [(docId, dom.id)] }
        | false => rfl

/-- The domain loop never modifies the relationships table. -/
theorem ddLoop_rels (ds : List String) (db : DB) (docId : YamlVal) :
    (Workflow.ddLoop db docId ds).1.document_relationships = db.document_relationships := by
  induction ds generalizing db with
  | nil => rfl
  | cons d rest ih =>
    unfold Workflow.ddLoop
    cases db.domains.find? (fun dm => dm.slug == d) with
    | none => exact ih db
    | some dom =>
      dsimp only
      cases h1 : db.document_domains.any (fun pr => pr.1 == docId && pr.2 == dom.id) with
      | true => exact ih db
      | false =>
        cases h2 : db.documents.any (fun r => r.id == docId) with
        | true =>
          exact ih { db with document_domains := db.document_domains ++ [(docId, dom.id)] }
        | false => rfl

/-- The domain loop succeeds whenever the bound document id is present, and
then leaves every field but document_domains unchanged. -/
theorem ddLoop_ok (ds : List String) (db : DB) (docId : YamlVal)
    (hid : db.documents.any (fun r => r.id == docId) = true) :
    ∃ dd, Workflow.ddLoop db docId ds = ({ db with document_domains := dd }, none) := by
  induction ds generalizing db with
  | nil => exact ⟨db.document_domains, rfl⟩
  | cons d rest ih =>
    unfold Workflow.ddLoop
    cases db.domains.find? (fun dm => dm.slug == d) with
    | none => exact ih db hid
    | some dom =>
      dsimp only
      cases h1 : db.document_domains.any (fun pr => pr.1 == docId && pr.2 == dom.id) with
      | true => exact ih db hid
      | false =>
        rw [hid]
        exact ih { db with document_domains := db.document_domains ++ [(docId, dom.id)] } hid

/-- The relationship loop never modifies the documents table. -/
theorem relLoop_documents (rels : List Rel) (db : DB) (docId : YamlVal) (now : String) :
    (Workflow.relLoop db docId now rels).1.documents = db.documents := by
  induction rels generalizing db with
  | nil => rfl
  | cons rel rest ih =>
    unfold Workflow.relLoop
    cases db.documents.find? (fun r => r.slug == rel.targetSlug) with
    | none => exact ih db
    | some target =>
      dsimp only
      cases h1 : db.document_relationships.any (fun r =>
        r.id == yamlToString docId ++ ":" ++ rel.type ++ ":" ++ yamlToString target.id) with
      | true => exact ih db
      | false =>
        cases h2 : relVocab.contains rel.type with
        | false => exact ih db
        | true =>
          cases h3 : db.documents.any (fun r => r.id == docId) with
          | true =>
            exact ih { db with document_relationships :=
              db.document_relationships ++
                [⟨yamlToString docId ++ ":" ++ rel.type ++ ":" ++ yamlToString target.id,
                  docId, target.id, rel.type, now⟩] }
          | false => rfl

/-- The relationship loop skips every entry whose target slug is absent. -/
theorem relLoop_skip_all (rels : List Rel) (db : DB) (docId : YamlVal) (now : String)
    (h : ∀ rel ∈ rels, db.documents.find? (fun r => r.slug == rel.targetSlug) = none) :
    Workflow.relLoop db docId now rels = (db, none) := by
  induction rels with
  | nil => rfl
  | cons rel rest ih =>
    unfold Workflow.relLoop
    rw [h rel (List.mem_cons_self rel rest)]
    exact ih (fun r hr => h r (List.mem_cons_of_mem rel hr))

/-- The decomposition of upsertDocument once the bind check and the document
statement succeed. -/
theorem upsertDocument_eq (db : DB) (p : ParsedDocument) (r2 now : String)
    (docs1 : List DocRow) (hb : bindOk p = true)
    (hd : Workflow.docUpsert db.documents p r2 now = .ok docs1) :
    Workflow.upsertDocument db p r2 now =
      (match Workflow.ddLoop { db with documents := docs1 } p.id p.domains with
       | (db2, some e) => (db2, some e)
       | (db2, none) => Workflow.relLoop db2 p.id now p.relationships) := by
  unfold Workflow.upsertDocument
  rw [hb, hd]
  simp

/-- The documents table after upsertDocument is exactly the result of the
document statement, whatever happens to the later loops. -/
theorem upsertDocument_documents (db : DB) (p : ParsedDocument) (r2 now : String)
    (docs1 : List DocRow) (hb : bindOk p = true)
    (hd : Workflow.docUpsert db.documents p r2 now = .ok docs1) :
    (Workflow.upsertDocument db p r2 now).1.documents = docs1 := by
  rw [upsertDocument_eq db p r2 now docs1 hb hd]
  rcases h : Workflow.ddLoop { db with documents := docs1 } p.id p.domains with ⟨db2, e⟩
  have hdocs := ddLoop_documents p.domains { db with documents := docs1 } p.id
  rw [h] at hdocs
  cases e with
  | none => simpa [relLoop_documents] using hdocs
  | some e => simpa using hdocs

/-- A successful upsertDocument implies the bind check and the document
statement succeeded. -/
theorem upsertDocument_ok_parts (db : DB) (p : ParsedDocument) (r2 now : String)
    (h : (Workflow.upsertDocument db p r2 now).2 = none) :
    bindOk p = true ∧ ∃ docs1, Workflow.docUpsert db.documents p r2 now = .ok docs1 := by
  by_cases hb : bindOk p
  · refine ⟨hb, ?_⟩
    rcases hd : Workflow.docUpsert db.documents p r2 now with e | docs1
    · exfalso
      unfold Workflow.upsertDocument at h
      rw [hb, hd] at h
      simp at h
    · exact ⟨docs1, rfl⟩
  · exfalso
    unfold Workflow.upsertDocument at h
    rw [Bool.not_eq_true] at hb
    rw [hb] at h
    simp at h

/-- Filtering by slug commutes with the conflict-branch map when the update
preserves the slug column. -/
theorem filter_slug_map_upd (docs : List DocRow) (s : String) (f : DocRow → DocRow)
    (hf : ∀ r, (f r).slug = r.slug) :
    (docs.map (fun r => if r.slug == s then f r else r)).filter (fun r => r.slug == s)
      = (docs.filter (fun r => r.slug == s)).map f := by
  induction docs with
  | nil => rfl
  | cons a l ih =>
    by_cases h : a.slug == s
    · simp only [List.map_cons, List.filter_cons, h, if_true, hf a, ih]
    · simp only [List.map_cons, List.filter_cons, h, if_false, ih,
        Bool.false_eq_true, cond_false]

/-- A non-empty filter witnesses a positive any. -/
theorem any_of_filter_cons (docs : List DocRow) (pr : DocRow → Bool) (r : DocRow)
    (l : List DocRow) (h : docs.filter pr = r :: l) : docs.any pr = true := by
  have hm : r ∈ docs.filter pr := by rw [h]; exact List.mem_cons_self r l
  rw [List.mem_filter] at hm
  exact List.any_eq_true.2 ⟨r, hm.1, hm.2⟩

/-- A false any empties the filter. -/
theorem filter_nil_of_any_false (docs : List DocRow) (pr : DocRow → Bool)
    (h : docs.any pr = false) : docs.filter pr = [] := by
  rw [List.filter_eq_nil_iff]
  intro a ha hpa
  rw [List.any_eq_false] at h
  exact h a ha hpa

/-- find? over an append whose first part has no match. -/
theorem find?_append_none {α : Type} (l1 l2 : List α) (f : α → Bool)
    (h : l1.find? f = none) : (l1 ++ l2).find? f = l2.find? f := by
  induction l1 with
  | nil => rfl
  | cons a l ih =>
    cases hfa : f a with
    | true => rw [List.find?_cons_of_pos _ hfa] at h; exact absurd h (by simp)
    | false =>
      rw [List.find?_cons_of_neg _ (by simp [hfa])] at h
      rw [List.cons_append, List.find?_cons_of_neg _ (by simp [hfa])]
      exact ih h

/-- find? is empty when no element satisfies the test. -/
theorem find?_none_of_any_false {α : Type} (l : List α) (f : α → Bool)
    (h : l.any f = false) : l.find? f = none := by
  rw [List.find?_eq_none]
  intro a ha
  rw [List.any_eq_false] at h
  exact h a ha

/-- When the parse yields a record, the sync step is exactly the upsert with
the deterministic r2 key. -/
theorem syncFile_eq_upsert (db : DB) (path content now : String) (p : ParsedDocument)
    (hp : parseGovernanceDocument path content = .ok (some p)) :
    Workflow.syncFile db path content now
      = Workflow.upsertDocument db p ("governance/" ++ path) now := by
  unfold Workflow.syncFile
  rw [hp]

/-- The conflict branch of the document statement. -/
theorem docUpsert_update (docs : List DocRow) (p : ParsedDocument) (r2 now : String)
    (hs : docs.any (fun r => r.slug == p.slug) = true) :
    Workflow.docUpsert docs p r2 now
      = .ok (docs.map (fun r =>
          if r.slug == p.slug then Workflow.updRow r p r2 now else r)) := by
  unfold Workflow.docUpsert
  rw [hs]
  exact rfl

/-- The fresh-insert branch of the document statement. -/
theorem docUpsert_fresh (docs : List DocRow) (p : ParsedDocument) (r2 now : String)
    (hs : docs.any (fun r => r.slug == p.slug) = false)
    (hid : docs.any (fun r => r.id == p.id) = false) :
    Workflow.docUpsert docs p r2 now = .ok (docs ++ [Workflow.newRow p r2 now]) := by
  unfold Workflow.docUpsert
  rw [hs, hid]
  exact rfl

/-- A filter that is inhabited and has length at most one is a singleton. -/
theorem filter_len_one (docs : List DocRow) (pr : DocRow → Bool)
    (hany : docs.any pr = true) (hle : (docs.filter pr).length ≤ 1) :
    ∃ r, docs.filter pr = [r] := by
  rcases hfl : docs.filter pr with _ | ⟨r, rest⟩
  · exfalso
    rcases List.any_eq_true.1 hany with ⟨x, hx, hpx⟩
    have : x ∈ docs.filter pr := List.mem_filter.2 ⟨hx, hpx⟩
    rw [hfl] at this
    exact absurd this (List.not_mem_nil x)
  · cases rest with
    | nil => exact ⟨r, rfl⟩
    | cons b l =>
      exfalso
      rw [hfl] at hle
      simp at hle

/-- A singleton relationship list whose target resolves, is not yet present,
and has an allowed type inserts exactly one edge. -/
theorem relLoop_insert_one (db : DB) (docId : YamlVal) (now rt ts : String)
    (target : DocRow)
    (hfind : db.documents.find? (fun r => r.slug == ts) = some target)
    (hdup : db.document_relationships.any (fun r =>
      r.id == yamlToString docId ++ ":" ++ rt ++ ":" ++ yamlToString target.id) = false)
    (hvoc : relVocab.contains rt = true)
    (hid : db.documents.any (fun r => r.id == docId) = true) :
    Workflow.relLoop db docId now [⟨rt, ts⟩]
      = ({ db with document_relationships := db.document_relationships ++
            [⟨yamlToString docId ++ ":" ++ rt ++ ":" ++ yamlToString target.id,
              docId, target.id, rt, now⟩] }, none) := by
  unfold Workflow.relLoop
  rw [hfind]
  dsimp only
  rw [hdup, hvoc, hid]
  exact rfl

/-- A singleton relationship list whose edge already exists is skipped. -/
theorem relLoop_skip_dup (db : DB) (docId : YamlVal) (now rt ts : String)
    (target : DocRow)
    (hfind : db.documents.find? (fun r => r.slug == ts) = some target)
    (hdup : db.document_relationships.any (fun r =>
      r.id == yamlToString docId ++ ":" ++ rt ++ ":" ++ yamlToString target.id) = true) :
    Workflow.relLoop db docId now [⟨rt, ts⟩] = (db, none) := by
  unfold Workflow.relLoop
  rw [hfind]
  dsimp only
  rw [hdup]
  exact rfl

/-- find? by slug commutes with a slug-preserving row transformation. -/
theorem find?_slug_map (docs : List DocRow) (ts : String) (g : DocRow → DocRow)
    (hg : ∀ r, (g r).slug = r.slug) :
    (docs.map g).find? (fun r => r.slug == ts)
      = (docs.find? (fun r => r.slug == ts)).map g := by
  induction docs with
  | nil => rfl
  | cons a l ih =>
    cases h : (a.slug == ts) with
    | true =>
      have h' : ((g a).slug == ts) = true := by rw [hg a]; exact h
      simp [List.find?_cons, h, h']
    | false =>
      have h' : ((g a).slug == ts) = false := by rw [hg a]; exact h
      simp only [List.map_cons, List.find?_cons, h, h']
      exact ih

/-- An id-membership test is stable under an id-preserving row map. -/
theorem any_id_map (docs : List DocRow) (x : YamlVal) (g : DocRow → DocRow)
    (hg : ∀ r, (g r).id = r.id) :
    (docs.map g).any (fun r => r.id == x) = docs.any (fun r => r.id == x) := by
  induction docs with
  | nil => rfl
  | cons a l ih => simp [List.any_cons, hg a, ih]

/-- Symmetry of a negative boolean equality test. -/
theorem beq_false_comm {α : Type} [DecidableEq α] (a b : α)
    (h : (a == b) = false) : (b == a) = false := by
  simp only [beq_eq_false_iff_ne] at h ⊢
  exact fun hh => h hh.symm

/-- An empty relationship list leaves the database unchanged. -/
theorem relLoop_nil (db : DB) (docId : YamlVal) (now : String) :
    Workflow.relLoop db docId now [] = (db, none) := rfl

/-- A slug-membership test is stable under a slug-preserving row map. -/
theorem any_slug_map (docs : List DocRow) (s : String) (g : DocRow → DocRow)
    (hg : ∀ r, (g r).slug = r.slug) :
    (docs.map g).any (fun r => r.slug == s) = docs.any (fun r => r.slug == s) := by
  induction docs with
  | nil => rfl
  | cons a l ih => simp [List.any_cons, hg a, ih]

/-- Once the bind check and the document statement succeed and the bound id
is present, upsertDocument is the relationship loop over the updated
documents, some domain-link state, and the unchanged relationships. -/
theorem upsertDocument_steps (db : DB) (p : ParsedDocument) (r2 now : String)
    (docs1 : List DocRow) (doms : List DomainRow) (rels : List RelRow)
    (hb : bindOk p = true)
    (hd : Workflow.docUpsert db.documents p r2 now = .ok docs1)
    (hid : docs1.any (fun r => r.id == p.id) = true)
    (hdoms : db.domains = doms)
    (hrels : db.document_relationships = rels) :
    ∃ dd, Workflow.upsertDocument db p r2 now
      = Workflow.relLoop ⟨docs1, doms, dd, rels⟩ p.id now p.relationships := by
  subst hdoms
  subst hrels
  rw [upsertDocument_eq db p r2 now docs1 hb hd]
  obtain ⟨dd, hdd⟩ := ddLoop_ok p.domains { db with documents := docs1 } p.id hid
  refine ⟨dd, ?_⟩
  rw [hdd]

/-- Applying the conflict update twice only refreshes updated_at. -/
theorem updRow_idem (r : DocRow) (p : ParsedDocument) (k t u : String) :
    Workflow.updRow (Workflow.updRow r p k t) p k u
      = { Workflow.updRow r p k t with updated_at := u } := rfl

/-- The conflict update of a freshly inserted row only refreshes updated_at. -/
theorem updRow_newRow (p : ParsedDocument) (k t u : String) :
    Workflow.updRow (Workflow.newRow p k t) p k u
      = { Workflow.newRow p k t with updated_at := u } := rfl

end Gov

/-! ## Claims -/

open Gov

/-- C6.  TTL gating: in a refresh cycle at time now, a tracked key with a
recorded last-refresh timestamp and per-key TTL is re-fetched if and only if
now minus lastRefresh is at least the TTL, or unconditionally when force is
set; a key refreshed at T with TTL 900 seconds is not re-fetched at T plus
500 seconds and is re-fetched at T plus 901 seconds. -/
theorem c6_ttl_gating (force : Bool) (t now ttl : Int) :
    (Cache.refreshIfDueFetches force (some t) now ttl = true ↔
      (now - t ≥ ttl * 1000 ∨ force = true)) ∧
    Cache.refreshIfDueFetches false (some t) (t + 500 * 1000) 900 = false ∧
    Cache.refreshIfDueFetches false (some t) (t + 901 * 1000) 900 = true := by
  refine ⟨?_, ?_, ?_⟩
  · cases force
    · simp only [Cache.refreshIfDueFetches, Bool.not_false, if_true]
      split <;> rename_i h <;> simp <;> omega
    · simp [Cache.refreshIfDueFetches]
  · simp [Cache.refreshIfDueFetches]
  · simp [Cache.refreshIfDueFetches]

/-- C10.  A delivery without a delivery-id header bypasses replay protection:
for a validly-signed main-branch push with markdown changes, each of two
identical deliveries dispatches the pipeline once, neither is reported as a
duplicate, and the nonce store is left untouched both times. -/
theorem c10_no_delivery_id_bypasses_replay (st : List (String × Nat))
    (now1 now2 : Nat) (p : Intake.PushEvent)
    (href : p.ref = "refs/heads/main")
    (hmd : Intake.changedMd p ≠ []) :
    (Intake.handleWebhook st now1 true none p).outcome =
      .accepted (Intake.changedMd p) (Intake.deletedMd p) p.after ∧
    (Intake.handleWebhook st now1 true none p).dispatches = 1 ∧
    (Intake.handleWebhook st now1 true none p).state = st ∧
    (Intake.handleWebhook
        (Intake.handleWebhook st now1 true none p).state now2 true none p).outcome =
      .accepted (Intake.changedMd p) (Intake.deletedMd p) p.after ∧
    (Intake.handleWebhook
        (Intake.handleWebhook st now1 true none p).state now2 true none p).dispatches = 1 ∧
    (Intake.handleWebhook
        (Intake.handleWebhook st now1 true none p).state now2 true none p).state = st := by
  have hne : (Intake.changedMd p).isEmpty = false := by
    cases h : Intake.changedMd p with
    | nil => exact absurd h hmd
    | cons a l => rfl
  simp [Intake.handleWebhook, Intake.processPayload, href, hne]

/-- Closed witness for C10 at a concrete push payload. -/
theorem c10_witness :
    (Intake.handleWebhook [] 0 true none
        ⟨"refs/heads/main", "abc123", [⟨"c1", ["agreements/a.md"], [], []⟩]⟩).dispatches = 1 ∧
    (Intake.handleWebhook [] 5 true none
        ⟨"refs/heads/main", "abc123", [⟨"c1", ["agreements/a.md"], [], []⟩]⟩).outcome =
      .accepted ["agreements/a.md"] [] "abc123" :=
  ⟨(c10_no_delivery_id_bypasses_replay [] 0 5
      ⟨"refs/heads/main", "abc123", [⟨"c1", ["agreements/a.md"], [], []⟩]⟩
      rfl (by decide)).2.1,
   by
    have h := (c10_no_delivery_id_bypasses_replay [] 5 0
      ⟨"refs/heads/main", "abc123", [⟨"c1", ["agreements/a.md"], [], []⟩]⟩
      rfl (by decide)).1
    simpa using h⟩

/-- C3.  Replay protection: with valid signatures on both deliveries and the
same delivery id, a first delivery at a time when no unexpired nonce exists
followed by a second within 24 hours makes the second return the duplicate
outcome with no state change and no dispatch, so the pipeline runs at most
once across the two deliveries; the duplicate short-circuit holds for every
second payload, before branch or file filtering. -/
theorem c3_replay_protection (st : List (String × Nat)) (now1 now2 : Nat)
    (d : String) (p1 p2 : Intake.PushEvent)
    (hfresh : Intake.kvHas st ("webhook:" ++ d) now1 = false)
    (hwin : now2 < now1 + 86400) :
    (Intake.handleWebhook
        (Intake.handleWebhook st now1 true (some d) p1).state now2 true (some d) p2).outcome
      = .duplicate d ∧
    (Intake.handleWebhook
        (Intake.handleWebhook st now1 true (some d) p1).state now2 true (some d) p2).state
      = (Intake.handleWebhook st now1 true (some d) p1).state ∧
    (Intake.handleWebhook st now1 true (some d) p1).dispatches +
      (Intake.handleWebhook
        (Intake.handleWebhook st now1 true (some d) p1).state now2 true (some d) p2).dispatches
      ≤ 1 := by
  have h1 : (Intake.handleWebhook st now1 true (some d) p1).state
      = Intake.kvPut st ("webhook:" ++ d) (now1 + 86400) := by
    simp [Intake.handleWebhook, hfresh, processPayload_state]
  have h2 : Intake.kvHas (Intake.handleWebhook st now1 true (some d) p1).state
      ("webhook:" ++ d) now2 = true := by
    rw [h1]; exact kvHas_kvPut_self st _ _ _ hwin
  have hd1 : (Intake.handleWebhook st now1 true (some d) p1).dispatches ≤ 1 := by
    simp only [Intake.handleWebhook, hfresh]
    simpa using processPayload_dispatches_le
      (Intake.kvPut st ("webhook:" ++ d) (now1 + 86400)) p1
  generalize hR : Intake.handleWebhook st now1 true (some d) p1 = r1 at h2 hd1 ⊢
  refine ⟨?_, ?_, ?_⟩
  · simp [Intake.handleWebhook, h2]
  · simp [Intake.handleWebhook, h2]
  · have hd2 : (Intake.handleWebhook r1.state now2 true (some d) p2).dispatches = 0 := by
      simp [Intake.handleWebhook, h2]
    omega

/-- Closed witness for C3 at a concrete pair of deliveries. -/
theorem c3_witness :
    (Intake.handleWebhook
        (Intake.handleWebhook [] 100 true (some "del-1")
          ⟨"refs/heads/main", "sha1", [⟨"c1", ["policies/p.md"], [], []⟩]⟩).state
        200 true (some "del-1")
        ⟨"refs/heads/main", "sha1", [⟨"c1", ["policies/p.md"], [], []⟩]⟩).outcome
      = .duplicate "del-1" :=
  (c3_replay_protection [] 100 200 "del-1"
      ⟨"refs/heads/main", "sha1", [⟨"c1", ["policies/p.md"], [], []⟩]⟩
      ⟨"refs/heads/main", "sha1", [⟨"c1", ["policies/p.md"], [], []⟩]⟩
      (by decide) (by decide)).1

/-- C2.  Soft delete at the failing input: the file proposals/p1.md is synced
(the parser derives slug p1), then the same path is processed as deleted; the
workflow-local pathToSlug does not strip the proposals segment and targets
slug proposals-p1, so the synced row keeps status active instead of being
retired. -/
theorem c2_delete_misses_proposals_path :
    pathToSlug "proposals/p1.md" = "p1" ∧
    Workflow.pathToSlug "proposals/p1.md" = "proposals-p1" ∧
    Workflow.syncFile ⟨[], [], [], []⟩ "proposals/p1.md"
        "---\nstatus: active\ntype: proposal\n---\nBody" "T1"
      = (⟨[⟨.str "p1", "p1", "proposal", .str "P1", "active", none, none, none, none,
            some "governance/proposals/p1.md", "T1", "T1"⟩], [], [], []⟩, none) ∧
    (Workflow.deleteDocument
        (Workflow.syncFile ⟨[], [], [], []⟩ "proposals/p1.md"
            "---\nstatus: active\ntype: proposal\n---\nBody" "T1").1
        "proposals/p1.md" "T2").documents
      = [⟨.str "p1", "p1", "proposal", .str "P1", "active", none, none, none, none,
          some "governance/proposals/p1.md", "T1", "T1"⟩] := by decide

/-- C5 counterexample.  With the related list written exactly as the claim
writes it, the sync produces the document row and the domain link but zero
relationship edges: the inline nested-object syntax is not supported by the
scanner, so no authorized_by edge to charter appears. -/
theorem c5_counterexample :
    (Workflow.syncFile scenarioDb "agreements/operating-agreement.md"
        scenarioLit "T1").2 = none ∧
    (Workflow.syncFile scenarioDb "agreements/operating-agreement.md"
        scenarioLit "T1").1.documents.map (fun r => (r.slug, r.type, r.status))
      = [("charter", "agreement", "active"),
         ("operating-agreement", "agreement", "active")] ∧
    (Workflow.syncFile scenarioDb "agreements/operating-agreement.md"
        scenarioLit "T1").1.document_domains
      = [(.str "operating-agreement", "dom-dao-core")] ∧
    (Workflow.syncFile scenarioDb "agreements/operating-agreement.md"
        scenarioLit "T1").1.document_relationships = [] := by decide

/-- C5 amended.  The same scenario with the related list in the supported
block shape produces exactly one document row with the claimed fields, one
domain link to dao-core, and one authorized_by edge to charter. -/
theorem c5_concrete_scenario :
    (Workflow.syncFile scenarioDb "agreements/operating-agreement.md"
        scenarioBlock "T1").2 = none ∧
    (Workflow.syncFile scenarioDb "agreements/operating-agreement.md"
        scenarioBlock "T1").1.documents.filter (fun r => r.slug == "operating-agreement")
      = [⟨.str "operating-agreement", "operating-agreement", "agreement",
          .str "Operating Agreement", "active", none, none, none, none,
          some "governance/agreements/operating-agreement.md", "T1", "T1"⟩] ∧
    (Workflow.syncFile scenarioDb "agreements/operating-agreement.md"
        scenarioBlock "T1").1.documents.length = 2 ∧
    (Workflow.syncFile scenarioDb "agreements/operating-agreement.md"
        scenarioBlock "T1").1.document_domains
      = [(.str "operating-agreement", "dom-dao-core")] ∧
    (Workflow.syncFile scenarioDb "agreements/operating-agreement.md"
        scenarioBlock "T1").1.document_relationships
      = [⟨"operating-agreement:authorized_by:charter", .str "operating-agreement",
          .str "charter", "authorized_by", "T1"⟩] := by decide

/-- C1 counterexample.  Re-syncing the same unchanged file at a later sync
time leaves one row but not with identical fields: updated_at records the
second sync time, so the two post-sync rows differ. -/
theorem c1_counterexample :
    (Workflow.syncFile ⟨[], [], [], []⟩ "policies/p.md" activeContent "T1").1.documents
      = [⟨.str "p", "p", "other", .str "P", "active", none, none, none, none,
          some "governance/policies/p.md", "T1", "T1"⟩] ∧
    (Workflow.syncFile
        (Workflow.syncFile ⟨[], [], [], []⟩ "policies/p.md" activeContent "T1").1
        "policies/p.md" activeContent "T2").1.documents
      = [⟨.str "p", "p", "other", .str "P", "active", none, none, none, none,
          some "governance/policies/p.md", "T1", "T2"⟩] ∧
    ¬ ((Workflow.syncFile
          (Workflow.syncFile ⟨[], [], [], []⟩ "policies/p.md" activeContent "T1").1
          "policies/p.md" activeContent "T2").1.documents
        = (Workflow.syncFile ⟨[], [], [], []⟩ "policies/p.md"
            activeContent "T1").1.documents) := by decide

/-- C1 amended.  Idempotent upsert: for every path and content whose parse
yields a record, if the first sync step succeeds then a second sync of the
same pair leaves exactly one row for the derived slug, and that row agrees
with the row after the first sync on every field except updated_at, which
records the second sync time. -/
theorem c1_idempotent_upsert (db : DB) (path content now1 now2 : String)
    (p : ParsedDocument) (db1 : DB)
    (hWF : (db.documents.filter (fun r => r.slug == p.slug)).length ≤ 1)
    (hp : parseGovernanceDocument path content = .ok (some p))
    (h1 : Workflow.syncFile db path content now1 = (db1, none)) :
    p.slug = pathToSlug path ∧
    ∃ r1, db1.documents.filter (fun r => r.slug == p.slug) = [r1] ∧
      (Workflow.syncFile db1 path content now2).1.documents.filter
          (fun r => r.slug == p.slug) = [{ r1 with updated_at := now2 }] := by
  have hslug : p.slug = pathToSlug path := by
    unfold parseGovernanceDocument at hp
    cases hex : excludedPath path with
    | true => rw [hex] at hp; simp at hp
    | false =>
      rw [hex] at hp
      cases hef : extractFrontmatter content with
      | error e => rw [hef] at hp; simp at hp
      | ok o =>
        cases o with
        | none => rw [hef] at hp; simp at hp
        | some fm =>
          rw [hef] at hp
          simp at hp
          rw [← hp]
          rfl
  rw [syncFile_eq_upsert db path content now1 p hp] at h1
  have h1err : (Workflow.upsertDocument db p ("governance/" ++ path) now1).2 = none := by
    rw [h1]
  obtain ⟨hb, docs1, hd1⟩ := upsertDocument_ok_parts db p _ now1 h1err
  have hdocs1 : db1.documents = docs1 := by
    have := upsertDocument_documents db p _ now1 docs1 hb hd1
    rw [h1] at this
    exact this
  rw [syncFile_eq_upsert db1 path content now2 p hp]
  refine ⟨hslug, ?_⟩
  cases hs : db.documents.any (fun r => r.slug == p.slug) with
  | true =>
    rw [docUpsert_update db.documents p _ now1 hs] at hd1
    have hmap : db.documents.map (fun r =>
        if r.slug == p.slug then Workflow.updRow r p ("governance/" ++ path) now1 else r)
        = docs1 := by
      injection hd1
    obtain ⟨r0, hr0⟩ := filter_len_one db.documents _ hs hWF
    have hfil1 : db1.documents.filter (fun r => r.slug == p.slug)
        = [Workflow.updRow r0 p ("governance/" ++ path) now1] := by
      rw [hdocs1, ← hmap,
        filter_slug_map_upd db.documents p.slug
          (fun r => Workflow.updRow r p ("governance/" ++ path) now1) (fun r => rfl), hr0]
      rfl
    refine ⟨Workflow.updRow r0 p ("governance/" ++ path) now1, hfil1, ?_⟩
    have hs2 : db1.documents.any (fun r => r.slug == p.slug) = true :=
      any_of_filter_cons _ _ _ _ hfil1
    have hd2 := docUpsert_update db1.documents p ("governance/" ++ path) now2 hs2
    rw [upsertDocument_documents db1 p _ now2 _ hb hd2,
      filter_slug_map_upd db1.documents p.slug
        (fun r => Workflow.updRow r p ("governance/" ++ path) now2) (fun r => rfl), hfil1]
    rw [List.map_singleton, updRow_idem]
  | false =>
    have hid : db.documents.any (fun r => r.id == p.id) = false := by
      cases hid : db.documents.any (fun r => r.id == p.id) with
      | false => rfl
      | true =>
        exfalso
        unfold Workflow.docUpsert at hd1
        rw [hs, hid] at hd1
        simp at hd1
    rw [docUpsert_fresh db.documents p _ now1 hs hid] at hd1
    have happ : db.documents ++ [Workflow.newRow p ("governance/" ++ path) now1]
        = docs1 := by
      injection hd1
    have hfil1 : db1.documents.filter (fun r => r.slug == p.slug)
        = [Workflow.newRow p ("governance/" ++ path) now1] := by
      rw [hdocs1, ← happ, List.filter_append, filter_nil_of_any_false db.documents _ hs]
      simp [Workflow.newRow]
    refine ⟨Workflow.newRow p ("governance/" ++ path) now1, hfil1, ?_⟩
    have hs2 : db1.documents.any (fun r => r.slug == p.slug) = true :=
      any_of_filter_cons _ _ _ _ hfil1
    have hd2 := docUpsert_update db1.documents p ("governance/" ++ path) now2 hs2
    rw [upsertDocument_documents db1 p _ now2 _ hb hd2,
      filter_slug_map_upd db1.documents p.slug
        (fun r => Workflow.updRow r p ("governance/" ++ path) now2) (fun r => rfl), hfil1]
    rw [List.map_singleton, updRow_newRow]

/-- Closed witness for the amended C1 at a concrete file. -/
theorem c1_witness :
    ∃ r1, (Workflow.syncFile (⟨[], [], [], []⟩ : DB) "policies/p.md"
          activeContent "T1").1.documents.filter (fun r => r.slug == "p") = [r1] ∧
      (Workflow.syncFile
          (Workflow.syncFile (⟨[], [], [], []⟩ : DB) "policies/p.md"
            activeContent "T1").1
          "policies/p.md" activeContent "T2").1.documents.filter
          (fun r => r.slug == "p") = [{ r1 with updated_at := "T2" }] :=
  (c1_idempotent_upsert (⟨[], [], [], []⟩ : DB) "policies/p.md" activeContent
      "T1" "T2"
      ⟨.str "p", "p", "other", .str "P", "active", none, none, none, [], [], []⟩
      (Workflow.syncFile (⟨[], [], [], []⟩ : DB) "policies/p.md" activeContent "T1").1
      (by decide) (by decide) (by decide)).2

/-- C9.  Frame property of the conflict branch: when a row with the incoming
slug already exists, the upsert leaves id, type, slug, content_hash and
created_at untouched and overwrites exactly title, status, effective_from,
effective_to, enacted_by, r2_key and updated_at. -/
theorem c9_conflict_preserves_id_and_type (db : DB) (p : ParsedDocument)
    (r2Key now : String) (r0 : DocRow) (hb : bindOk p = true)
    (hrow : db.documents.filter (fun r => r.slug == p.slug) = [r0]) :
    (Workflow.upsertDocument db p r2Key now).1.documents.filter
        (fun r => r.slug == p.slug)
      = [{ r0 with title := p.title, status := p.status,
                   effective_from := p.effectiveFrom, effective_to := p.effectiveTo,
                   enacted_by := p.enactedBy, r2_key := some r2Key,
                   updated_at := now }] := by
  have hs : db.documents.any (fun r => r.slug == p.slug) = true :=
    any_of_filter_cons _ _ _ _ hrow
  have hd := docUpsert_update db.documents p r2Key now hs
  rw [upsertDocument_documents db p r2Key now _ hb hd,
    filter_slug_map_upd db.documents p.slug
      (fun r => Workflow.updRow r p r2Key now) (fun r => rfl), hrow]
  rfl

/-- Closed witness for C9: the stored row keeps its old id and type although
the new parse carries different values. -/
theorem c9_witness :
    (Workflow.upsertDocument
        ⟨[⟨.str "old-id", "x", "agreement", .str "Old Title", "draft",
            none, none, some "H0", none, some "K0", "C0", "U0"⟩], [], [], []⟩
        ⟨.str "new-id", "x", "policy", .str "New Title", "active",
          some (.str "2024-01-01"), none, some (.str "prop-9"), [], [], []⟩
        "governance/x.md" "T9").1.documents.filter (fun r => r.slug == "x")
      = [⟨.str "old-id", "x", "agreement", .str "New Title", "active",
          some (.str "2024-01-01"), none, some "H0", some (.str "prop-9"),
          some "governance/x.md", "C0", "T9"⟩] :=
  c9_conflict_preserves_id_and_type
    ⟨[⟨.str "old-id", "x", "agreement", .str "Old Title", "draft",
        none, none, some "H0", none, some "K0", "C0", "U0"⟩], [], [], []⟩
    ⟨.str "new-id", "x", "policy", .str "New Title", "active",
      some (.str "2024-01-01"), none, some (.str "prop-9"), [], [], []⟩
    "governance/x.md" "T9"
    ⟨.str "old-id", "x", "agreement", .str "Old Title", "draft",
      none, none, some "H0", none, some "K0", "C0", "U0"⟩
    (by decide) (by decide)

/-- C7 counterexample.  The parser can raise: on a non-excluded path whose
content has a metadata block in which an indented list item follows a key
with a non-empty scalar value, the scanner pushes onto a string and throws a
TypeError instead of returning a record. -/
theorem c7_counterexample :
    excludedPath "policies/doc.md" = false ∧
    extractFrontmatterRaw "---\ntitle: x\n  - y\n---\nbody" = some "title: x\n  - y" ∧
    parseGovernanceDocument "policies/doc.md" "---\ntitle: x\n  - y\n---\nbody"
      = .error () := by decide

/-- C7 amended.  Graceful defaults: for every non-excluded path and content
whose metadata block scans without the TypeError, the parser returns a
record in which a missing type yields other, a missing status yields draft,
a missing title yields the title-cased slug, and missing domain,
relationship and scope lists yield empty lists; a file with no metadata
block yields NotIndexable, never an error. -/
theorem c7_graceful_defaults :
    (∀ path content y fm, excludedPath path = false →
      extractFrontmatterRaw content = some y →
      parseYamlSimple y = .ok fm →
      parseGovernanceDocument path content = .ok (some (buildRecord path fm)) ∧
      (buildRecord path fm).slug = pathToSlug path ∧
      (getKey fm "type" = none → (buildRecord path fm).type = "other") ∧
      (getKey fm "status" = none → (buildRecord path fm).status = "draft") ∧
      (getKey fm "title" = none →
        (buildRecord path fm).title = .str (titleFromPath path)) ∧
      (getKey fm "domain" = none → getKey fm "domains" = none →
        (buildRecord path fm).domains = []) ∧
      (getKey fm "related" = none → getKey fm "relationships" = none →
        (buildRecord path fm).relationships = []) ∧
      (getKey fm "scope" = none → (buildRecord path fm).scope = [])) ∧
    (∀ path content, extractFrontmatterRaw content = none →
      parseGovernanceDocument path content = .ok none) := by
  constructor
  · intro path content y fm hex hraw hy
    refine ⟨?_, rfl, ?_, ?_, ?_, ?_, ?_, ?_⟩
    · simp [parseGovernanceDocument, extractFrontmatter, hex, hraw, hy]
    · intro h; simp [buildRecord, normaliseType, h]
    · intro h; simp [buildRecord, normaliseStatus, h]
    · intro h; simp [buildRecord, h]
    · intro h1 h2; simp [buildRecord, key2, h1, h2, normaliseDomains]
    · intro h1 h2; simp [buildRecord, key2, h1, h2, normaliseRelationships]
    · intro h; simp [buildRecord, h, normaliseScope]
  · intro path content h
    by_cases hex : excludedPath path <;>
      simp [parseGovernanceDocument, extractFrontmatter, hex, h]

/-- Closed witness for the amended C7 at a file whose metadata has only one
unrelated key. -/
theorem c7_witness :
    parseGovernanceDocument "policies/doc.md" "---\nfoo: bar\n---\nbody"
      = .ok (some (buildRecord "policies/doc.md" [("foo", .str "bar")])) ∧
    (buildRecord "policies/doc.md" [("foo", .str "bar")]).type = "other" ∧
    (buildRecord "policies/doc.md" [("foo", .str "bar")]).status = "draft" ∧
    (buildRecord "policies/doc.md" [("foo", .str "bar")]).title
      = .str (titleFromPath "policies/doc.md") ∧
    (buildRecord "policies/doc.md" [("foo", .str "bar")]).domains = [] ∧
    (buildRecord "policies/doc.md" [("foo", .str "bar")]).relationships = [] ∧
    (buildRecord "policies/doc.md" [("foo", .str "bar")]).scope = [] := by
  have h := c7_graceful_defaults.1 "policies/doc.md" "---\nfoo: bar\n---\nbody"
    "foo: bar" [("foo", YamlVal.str "bar")] (by decide) (by decide) (by decide)
  exact ⟨h.1, h.2.2.1 (by decide), h.2.2.2.1 (by decide),
    h.2.2.2.2.1 (by decide), h.2.2.2.2.2.1 (by decide) (by decide),
    h.2.2.2.2.2.2.1 (by decide) (by decide), h.2.2.2.2.2.2.2 (by decide)⟩

/-- C8 counterexample.  A path whose underscore is in the middle of a file
name matches none of the claimed patterns: it has no readme or template
marker and no underscore-prefixed segment, its content has a metadata block,
and the parser still rejects it. -/
theorem c8_counterexample :
    strContains "agreements/my_doc.md" "README" = false ∧
    strContains "agreements/my_doc.md" "template" = false ∧
    (strSplitChar '/' "agreements/my_doc.md").all
        (fun seg => !(strStarts seg "_")) = true ∧
    extractFrontmatterRaw "---\ntitle: t\n---\nbody" = some "title: t" ∧
    parseGovernanceDocument "agreements/my_doc.md" "---\ntitle: t\n---\nbody"
      = .ok none := by decide

/-- C8 amended.  Path exclusion: the parser returns NotIndexable for exactly
the paths containing the substring README, template or an underscore
anywhere; for every other path whose metadata block scans, the path itself
does not cause rejection. -/
theorem c8_path_exclusion :
    (∀ path content,
      (strContains path "README" || strContains path "template" ||
        strContains path "_") = true →
      parseGovernanceDocument path content = .ok none) ∧
    (∀ path content y fm,
      (strContains path "README" || strContains path "template" ||
        strContains path "_") = false →
      extractFrontmatterRaw content = some y →
      parseYamlSimple y = .ok fm →
      parseGovernanceDocument path content = .ok (some (buildRecord path fm))) := by
  constructor
  · intro path content h
    simp [parseGovernanceDocument, excludedPath, h]
  · intro path content y fm hex hraw hy
    simp [parseGovernanceDocument, excludedPath, extractFrontmatter, hex, hraw, hy]

/-- Closed witness for the amended C8 at an underscore-marked path. -/
theorem c8_witness :
    parseGovernanceDocument "governance/_template.md" "---\ntitle: t\n---\nbody"
      = .ok none :=
  c8_path_exclusion.1 "governance/_template.md" "---\ntitle: t\n---\nbody" (by decide)


/-- C4.  Dangling reference: syncing a fresh document p that declares one
relationship of an allowed type to a slug absent from the documents table
inserts zero relationship edges and raises no error; after the target q has
been synced, an explicit re-sync of p inserts exactly one edge (from p, of
that type, to q), and re-syncing p again does not duplicate it. -/
theorem c4_dangling_reference (db : DB) (p q : ParsedDocument)
    (r2p r2q n1 n2 n3 n4 rt : String)
    (hbp : bindOk p = true) (hbq : bindOk q = true)
    (hrels : p.relationships = [⟨rt, q.slug⟩])
    (hvoc : relVocab.contains rt = true)
    (hqrels : q.relationships = [])
    (hps : db.documents.any (fun r => r.slug == p.slug) = false)
    (hpid : db.documents.any (fun r => r.id == p.id) = false)
    (hts : db.documents.any (fun r => r.slug == q.slug) = false)
    (hqid : db.documents.any (fun r => r.id == q.id) = false)
    (hneslug : (p.slug == q.slug) = false)
    (hneid : (q.id == p.id) = false)
    (hrelid : db.document_relationships.any (fun r =>
      r.id == yamlToString p.id ++ ":" ++ rt ++ ":" ++ yamlToString q.id) = false) :
    ∃ db1 db2 db3 db4 : DB,
      Workflow.upsertDocument db p r2p n1 = (db1, none) ∧
      db1.document_relationships = db.document_relationships ∧
      Workflow.upsertDocument db1 q r2q n2 = (db2, none) ∧
      db2.document_relationships = db.document_relationships ∧
      Workflow.upsertDocument db2 p r2p n3 = (db3, none) ∧
      db3.document_relationships = db.document_relationships ++
        [⟨yamlToString p.id ++ ":" ++ rt ++ ":" ++ yamlToString q.id,
          p.id, q.id, rt, n3⟩] ∧
      Workflow.upsertDocument db3 p r2p n4 = (db4, none) ∧
      db4.document_relationships = db3.document_relationships := by
  have hupdSlug : ∀ r2x nx (r : DocRow),
      ((fun r => if r.slug == p.slug then Workflow.updRow r p r2x nx else r) r).slug
        = r.slug := by
    intro r2x nx r
    dsimp only
    split <;> rfl
  have hupdId : ∀ r2x nx (r : DocRow),
      ((fun r => if r.slug == p.slug then Workflow.updRow r p r2x nx else r) r).id
        = r.id := by
    intro r2x nx r
    dsimp only
    split <;> rfl
  -- phase 1: fresh insert of p, dangling target
  have hd1 : Workflow.docUpsert db.documents p r2p n1
      = .ok (db.documents ++ [Workflow.newRow p r2p n1]) :=
    docUpsert_fresh db.documents p r2p n1 hps hpid
  have hid1 : (db.documents ++ [Workflow.newRow p r2p n1]).any
      (fun r => r.id == p.id) = true := by
    rw [List.any_append]
    simp [Workflow.newRow]
  obtain ⟨dd1, h1⟩ := upsertDocument_steps db p r2p n1
    (db.documents ++ [Workflow.newRow p r2p n1]) db.domains
    db.document_relationships hbp hd1 hid1 rfl rfl
  rw [hrels] at h1
  have hfind1 : (db.documents ++ [Workflow.newRow p r2p n1]).find?
      (fun r => r.slug == q.slug) = none := by
    rw [find?_append_none _ _ _ (find?_none_of_any_false _ _ hts),
      List.find?_cons_of_neg _ (by simp [Workflow.newRow, hneslug])]
    rfl
  rw [relLoop_skip_all [⟨rt, q.slug⟩]
      ⟨db.documents ++ [Workflow.newRow p r2p n1], db.domains, dd1,
        db.document_relationships⟩ p.id n1
      (by
        intro rel hrel
        rw [List.mem_singleton] at hrel
        subst hrel
        exact hfind1)] at h1
  -- phase 2: fresh insert of the target q
  have hd2 : Workflow.docUpsert (db.documents ++ [Workflow.newRow p r2p n1]) q r2q n2
      = .ok ((db.documents ++ [Workflow.newRow p r2p n1])
          ++ [Workflow.newRow q r2q n2]) := by
    apply docUpsert_fresh
    · rw [List.any_append]
      simp [Workflow.newRow, hts, hneslug]
    · rw [List.any_append]
      simp [Workflow.newRow, hqid, beq_false_comm q.id p.id hneid]
  have hid2 : ((db.documents ++ [Workflow.newRow p r2p n1])
        ++ [Workflow.newRow q r2q n2]).any (fun r => r.id == q.id) = true := by
    rw [List.any_append]
    simp [Workflow.newRow]
  obtain ⟨dd2, h2⟩ := upsertDocument_steps
    ⟨db.documents ++ [Workflow.newRow p r2p n1], db.domains, dd1,
      db.document_relationships⟩ q r2q n2
    ((db.documents ++ [Workflow.newRow p r2p n1]) ++ [Workflow.newRow q r2q n2])
    db.domains db.document_relationships hbq hd2 hid2 rfl rfl
  rw [hqrels, relLoop_nil] at h2
  -- phase 3: explicit re-sync of p with the target present
  have hs3 : ((db.documents ++ [Workflow.newRow p r2p n1])
        ++ [Workflow.newRow q r2q n2]).any (fun r => r.slug == p.slug) = true := by
    rw [List.any_append, List.any_append]
    simp [Workflow.newRow]
  have hd3 := docUpsert_update
    ((db.documents ++ [Workflow.newRow p r2p n1]) ++ [Workflow.newRow q r2q n2])
    p r2p n3 hs3
  have hidP2 : ((db.documents ++ [Workflow.newRow p r2p n1])
        ++ [Workflow.newRow q r2q n2]).any (fun r => r.id == p.id) = true := by
    rw [List.any_append, hid1]
    rfl
  have hid3 : (((db.documents ++ [Workflow.newRow p r2p n1])
        ++ [Workflow.newRow q r2q n2]).map (fun r =>
          if r.slug == p.slug then Workflow.updRow r p r2p n3 else r)).any
        (fun r => r.id == p.id) = true := by
    rw [any_id_map _ _ _ (hupdId r2p n3)]
    exact hidP2
  obtain ⟨dd3, h3⟩ := upsertDocument_steps
    ⟨(db.documents ++ [Workflow.newRow p r2p n1]) ++ [Workflow.newRow q r2q n2],
      db.domains, dd2, db.document_relationships⟩ p r2p n3
    (((db.documents ++ [Workflow.newRow p r2p n1])
        ++ [Workflow.newRow q r2q n2]).map (fun r =>
          if r.slug == p.slug then Workflow.updRow r p r2p n3 else r))
    db.domains db.document_relationships hbp hd3 hid3 rfl rfl
  rw [hrels] at h3
  have hfind2 : ((db.documents ++ [Workflow.newRow p r2p n1])
        ++ [Workflow.newRow q r2q n2]).find? (fun r => r.slug == q.slug)
      = some (Workflow.newRow q r2q n2) := by
    rw [find?_append_none _ _ _ hfind1,
      List.find?_cons_of_pos _ (by simp [Workflow.newRow])]
  have hqp : ((Workflow.newRow q r2q n2).slug == p.slug) = false := by
    simp only [Workflow.newRow]
    exact beq_false_comm p.slug q.slug hneslug
  have hfind3 : (((db.documents ++ [Workflow.newRow p r2p n1])
        ++ [Workflow.newRow q r2q n2]).map (fun r =>
          if r.slug == p.slug then Workflow.updRow r p r2p n3 else r)).find?
        (fun r => r.slug == q.slug) = some (Workflow.newRow q r2q n2) := by
    rw [find?_slug_map _ _ _ (hupdSlug r2p n3), hfind2]
    dsimp only [Option.map]
    rw [hqp]
    exact rfl
  rw [relLoop_insert_one
      ⟨(((db.documents ++ [Workflow.newRow p r2p n1])
          ++ [Workflow.newRow q r2q n2]).map (fun r =>
            if r.slug == p.slug then Workflow.updRow r p r2p n3 else r)),
        db.domains, dd3, db.document_relationships⟩
      p.id n3 rt q.slug (Workflow.newRow q r2q n2) hfind3 hrelid hvoc hid3] at h3
  -- phase 4: second re-sync of p, edge already present
  have hs4 : ((((db.documents ++ [Workflow.newRow p r2p n1])
        ++ [Workflow.newRow q r2q n2]).map (fun r =>
          if r.slug == p.slug then Workflow.updRow r p r2p n3 else r))).any
        (fun r => r.slug == p.slug) = true := by
    rw [any_slug_map _ _ _ (hupdSlug r2p n3)]
    exact hs3
  have hd4 := docUpsert_update
    ((((db.documents ++ [Workflow.newRow p r2p n1])
        ++ [Workflow.newRow q r2q n2]).map (fun r =>
          if r.slug == p.slug then Workflow.updRow r p r2p n3 else r)))
    p r2p n4 hs4
  have hid4 : (((((db.documents ++ [Workflow.newRow p r2p n1])
        ++ [Workflow.newRow q r2q n2]).map (fun r =>
          if r.slug == p.slug then Workflow.updRow r p r2p n3 else r)).map (fun r =>
          if r.slug == p.slug then Workflow.updRow r p r2p n4 else r))).any
        (fun r => r.id == p.id) = true := by
    rw [any_id_map _ _ _ (hupdId r2p n4)]
    exact hid3
  obtain ⟨dd4, h4⟩ := upsertDocument_steps
    ⟨(((db.documents ++ [Workflow.newRow p r2p n1])
        ++ [Workflow.newRow q r2q n2]).map (fun r =>
          if r.slug == p.slug then Workflow.updRow r p r2p n3 else r)),
      db.domains, dd3,
      db.document_relationships ++
        [⟨yamlToString p.id ++ ":" ++ rt ++ ":" ++ yamlToString q.id,
          p.id, q.id, rt, n3⟩]⟩ p r2p n4
    ((((db.documents ++ [Workflow.newRow p r2p n1])
        ++ [Workflow.newRow q r2q n2]).map (fun r =>
          if r.slug == p.slug then Workflow.updRow r p r2p n3 else r)).map (fun r =>
          if r.slug == p.slug then Workflow.updRow r p r2p n4 else r))
    db.domains
    (db.document_relationships ++
      [⟨yamlToString p.id ++ ":" ++ rt ++ ":" ++ yamlToString q.id,
        p.id, q.id, rt, n3⟩]) hbp hd4 hid4 rfl rfl
  rw [hrels] at h4
  have hfind4 : ((((db.documents ++ [Workflow.newRow p r2p n1])
        ++ [Workflow.newRow q r2q n2]).map (fun r =>
          if r.slug == p.slug then Workflow.updRow r p r2p n3 else r)).map (fun r =>
          if r.slug == p.slug then Workflow.updRow r p r2p n4 else r)).find?
        (fun r => r.slug == q.slug) = some (Workflow.newRow q r2q n2) := by
    rw [find?_slug_map _ _ _ (hupdSlug r2p n4), hfind3]
    dsimp only [Option.map]
    rw [hqp]
    exact rfl
  have hdup4 : (db.document_relationships ++
      [(⟨yamlToString p.id ++ ":" ++ rt ++ ":" ++ yamlToString q.id,
        p.id, q.id, rt, n3⟩ : RelRow)]).any (fun r =>
      r.id == yamlToString p.id ++ ":" ++ rt ++ ":" ++ yamlToString q.id)
      = true := by
    rw [List.any_append]
    simp
  rw [relLoop_skip_dup
      ⟨((((db.documents ++ [Workflow.newRow p r2p n1])
          ++ [Workflow.newRow q r2q n2]).map (fun r =>
            if r.slug == p.slug then Workflow.updRow r p r2p n3 else r)).map (fun r =>
            if r.slug == p.slug then Workflow.updRow r p r2p n4 else r)),
        db.domains, dd4,
        db.document_relationships ++
          [(⟨yamlToString p.id ++ ":" ++ rt ++ ":" ++ yamlToString q.id,
            p.id, q.id, rt, n3⟩ : RelRow)]⟩
      p.id n4 rt q.slug (Workflow.newRow q r2q n2) hfind4 hdup4] at h4
  exact ⟨_, _, _, _, h1, rfl, h2, rfl, h3, rfl, h4, rfl⟩

/-- Closed witness for C4: a policy c with authorized_by b synced before and
after the agreement b exists. -/
theorem c4_witness :
    ∃ db1 db2 db3 db4 : Gov.DB,
      Workflow.upsertDocument ⟨[], [], [], []⟩
          ⟨.str "c", "c", "policy", .str "C", "draft", none, none, none, [],
            [⟨"authorized_by", "b"⟩], []⟩ "governance/policies/c.md" "T1"
        = (db1, none) ∧
      db1.document_relationships = [] ∧
      Workflow.upsertDocument db1
          ⟨.str "b", "b", "agreement", .str "B", "active", none, none, none, [],
            [], []⟩ "governance/agreements/b.md" "T2"
        = (db2, none) ∧
      db2.document_relationships = [] ∧
      Workflow.upsertDocument db2
          ⟨.str "c", "c", "policy", .str "C", "draft", none, none, none, [],
            [⟨"authorized_by", "b"⟩], []⟩ "governance/policies/c.md" "T3"
        = (db3, none) ∧
      db3.document_relationships
        = [⟨"c:authorized_by:b", .str "c", .str "b", "authorized_by", "T3"⟩] ∧
      Workflow.upsertDocument db3
          ⟨.str "c", "c", "policy", .str "C", "draft", none, none, none, [],
            [⟨"authorized_by", "b"⟩], []⟩ "governance/policies/c.md" "T4"
        = (db4, none) ∧
      db4.document_relationships = db3.document_relationships := by
  have h := c4_dangling_reference ⟨[], [], [], []⟩
    ⟨.str "c", "c", "policy", .str "C", "draft", none, none, none, [],
      [⟨"authorized_by", "b"⟩], []⟩
    ⟨.str "b", "b", "agreement", .str "B", "active", none, none, none, [], [], []⟩
    "governance/policies/c.md" "governance/agreements/b.md" "T1" "T2" "T3" "T4"
    "authorized_by" (by decide) (by decide) (by decide) (by decide) (by decide)
    (by decide) (by decide) (by decide) (by decide) (by decide) (by decide)
    (by decide)
  exact h
